import Mathlib

/-!
Shallow embedding of the `async` C++ library (callback/canceller framework,
promise/future with combinators, worker pool with timer), together with
theorems checking the specification's claims against the code.

Sources embedded:
* `src/async.cpp`    — `AtomicFlagRef` bit operations, callback-id packing,
                       `OnAllCompleted::Detach`, `OnAnyCompleted::Detach`.
* `src/callback.hpp` — `Callback` (cancellation / invocation semantics).
* `src/canceller.hpp`— `Canceller` (flag registry, `MakeCb`,
                       `RegisterCallback`), synchronizers.
* `src/async.hpp`    — `SharedState`, `Promise`, `Future`, `operator&&`,
                       `operator||`.
* `src/workerpool.cpp` — `TimerCtx` (schedule / timer loop),
                       `WorkerCtx::InvokeGuarded`.

Machine bytes are modelled as `Nat` with explicit masking; the executor is
modelled as an explicit queue of scheduled thunks; exceptions are modelled
with `Except`.
-/

namespace AsyncLib

/-! ### Atomic flag byte (async.cpp, `AtomicFlagRef`)

Flag layout: bit 7 = alive `A`, bit 6 = cancelled `C`, bits 0-5 = generation
`ID`.  The byte is modelled as a `Nat` kept below 256. -/

def MASK_ALIVE : Nat := 128

def MASK_CANCELLED : Nat := 64

def ID_LENGTH : Nat := 6

def MASK_ID : Nat := 63

/-- `AtomicFlagRef::IsAlive`: `(*m_block & MASK_ALIVE) != 0`. -/
def flagIsAlive (b : Nat) : Bool := b.land MASK_ALIVE != 0

/-- `AtomicFlagRef::IsCancelled`: `(*m_block & MASK_CANCELLED) != 0`. -/
def flagIsCancelled (b : Nat) : Bool := b.land MASK_CANCELLED != 0

/-- `AtomicFlagRef::GetId`: `*m_block & MASK_ID`. -/
def flagGetId (b : Nat) : Nat := b.land MASK_ID

/-- `AtomicFlagRef::Activate`: `++*m_block; *m_block |= MASK_ALIVE;
`*m_block &= ~MASK_CANCELLED` (byte arithmetic wraps at 256). -/
def flagActivate (b : Nat) : Nat := (((b + 1) % 256).lor MASK_ALIVE).land 191

/-- `AtomicFlagRef::Deactivate`: `*m_block &= ~MASK_ALIVE`. -/
def flagDeactivate (b : Nat) : Nat := b.land 127

/-- `AtomicFlagRef::Cancel`: `*m_block |= MASK_CANCELLED`. -/
def flagCancel (b : Nat) : Nat := b.lor MASK_CANCELLED

/-- `MakeCallbackId`: `(index << ID_LENGTH) | flagRef.GetId()`. -/
def makeCallbackId (flagByte : Nat) (index : Nat) : Nat :=
  index * 64 + flagGetId flagByte

/-- `GetFlagIndex`: `callbackId >> ID_LENGTH`. -/
def getFlagIndex (callbackId : Nat) : Nat := callbackId / 64

/-- `GetOperationId`: `callbackId & MASK_ID`. -/
def getOperationId (callbackId : Nat) : Nat := callbackId.land MASK_ID

/-! ### Canceller state (canceller.hpp)

A `Canceller<N>` holds a shared `CancellerToken` (modelled by a numeric
token id), the array `m_activeFlags` of `N` flag bytes and the round-robin
cursor `m_lastUsedFlag`.  Liveness of tokens is modelled by an explicit
world: the list of token ids whose `shared_ptr` is still alive; a
`weak_ptr::lock()` succeeds exactly when the id is in the world. -/

structure CancellerState where
  tokenId : Nat
  flags : List Nat
  lastUsedFlag : Nat
  deriving Repr, DecidableEq

/-- `Canceller::Canceller()`: fresh token, zero-initialised flag array,
cursor at the beginning. -/
def cancellerNew (tok : Nat) (n : Nat) : CancellerState :=
  ⟨tok, List.replicate n 0, 0⟩

/-- `Canceller::Canceller(const MyT &)` delegates to the default
constructor, ignoring the source entirely. -/
def cancellerCopy (src : CancellerState) (freshTok : Nat) : CancellerState :=
  cancellerNew freshTok src.flags.length

/-- `Canceller::InvalidateCallbacks()`: fresh token, `memset` of the flag
array to zero, cursor reset. -/
def invalidateCallbacks (s : CancellerState) (freshTok : Nat) : CancellerState :=
  ⟨freshTok, List.replicate s.flags.length 0, 0⟩

/-- The search loop inside `Canceller::RegisterCallback`: advance the
cursor (with wrap-around) up to `fuel` times, returning the first position
holding a non-alive flag. -/
def findFreeSlot (flags : List Nat) (cursor : Nat) : Nat → Option Nat
  | 0 => none
  | fuel + 1 =>
    if flagIsAlive (flags.getD ((cursor + 1) % flags.length) 0) then
      findFreeSlot flags ((cursor + 1) % flags.length) fuel
    else some ((cursor + 1) % flags.length)

/-- Result of `Canceller::RegisterCallback`: updated canceller, the
returned `AtomicFlagRef` (`none` = empty ref) and the produced
`CallbackId`. -/
structure RegisterResult where
  state : CancellerState
  flagIdx : Option Nat
  callbackId : Option Nat
  deriving Repr, DecidableEq

/-- `Canceller::RegisterCallback(CallbackId * callbackId)`.
`withId = false` models a null `callbackId` pointer: no flag is touched and
an empty flag ref is returned.  Otherwise one full sweep searches for a
free flag; exhaustion throws (`CapacityExceeded`). -/
def registerCallback (s : CancellerState) (withId : Bool) :
    Except String RegisterResult :=
  if !withId then .ok ⟨s, none, none⟩
  else
    match findFreeSlot s.flags s.lastUsedFlag s.flags.length with
    | none => .error "Number of callbacks exceeds Canceller capacity"
    | some idx =>
      let newByte := flagActivate (s.flags.getD idx 0)
      .ok ⟨⟨s.tokenId, s.flags.set idx newByte, idx⟩, some idx,
           some (makeCallbackId newByte idx)⟩

/-- A `Callback<Rs...>` value: weak token reference, stored function
(`none` models a null `std::function`) and flag reference. -/
structure CallbackState (F : Type) where
  tokenId : Nat
  func : Option F
  flagIdx : Option Nat
  deriving Repr, DecidableEq

/-- `Canceller::MakeCb(F && callback, CallbackId * callbackId)`: register
(possibly tracked) and construct the `Callback` bound to the canceller's
token and the supplied function. -/
def makeCb {F : Type} (s : CancellerState) (f : F) (withId : Bool) :
    Except String (CancellerState × CallbackState F × Option Nat) :=
  (registerCallback s withId).map fun r =>
    (r.state, ⟨s.tokenId, some f, r.flagIdx⟩, r.callbackId)

/-- The world of live `CancellerToken`s; `weak_ptr::lock` succeeds iff the
token id is present. -/
def tokenLock (w : List Nat) (t : Nat) : Bool := w.contains t

/-- `Canceller::~Canceller()`: spins until it is the sole owner of the
token, then releases it — afterwards every weak reference to this token
fails to lock. -/
def destroyCanceller (w : List Nat) (s : CancellerState) : List Nat :=
  w.filter (fun t => t ≠ s.tokenId)

/-- `Callback::Cancelled`: if the token still locks, cancelled iff the flag
ref is non-empty and its cancel bit is set; a dead token reports
cancelled. -/
def cbCancelled {F : Type} (w : List Nat) (flags : List Nat)
    (c : CallbackState F) : Bool :=
  if tokenLock w c.tokenId then
    c.flagIdx.isSome && flagIsCancelled (flags.getD (c.flagIdx.getD 0) 0)
  else true

/-- `Callback::Invoke`: whether the stored function is actually called —
requires a non-null function, a live token, and an un-cancelled flag. -/
def cbInvokeRuns {F : Type} (w : List Nat) (flags : List Nat)
    (c : CallbackState F) : Bool :=
  c.func.isSome && tokenLock w c.tokenId &&
    !(c.flagIdx.isSome && flagIsCancelled (flags.getD (c.flagIdx.getD 0) 0))

/-- `Callback::~Callback` → `Deactivate()`: if the flag ref is non-empty
and the token locks, clear the alive bit of the referenced flag. -/
def cbDestroy {F : Type} (w : List Nat) (s : CancellerState)
    (c : CallbackState F) : CancellerState :=
  match c.flagIdx with
  | none => s
  | some idx =>
    if tokenLock w c.tokenId then
      { s with flags := s.flags.set idx (flagDeactivate (s.flags.getD idx 0)) }
    else s

/-- `Canceller::CancelCallback`: decode the id, set the cancel bit when the
generation matches, null the id. -/
def cancelCallback (s : CancellerState) (cid : Option Nat) :
    CancellerState × Option Nat :=
  match cid with
  | none => (s, none)
  | some id =>
    let index := getFlagIndex id
    let b := s.flags.getD index 0
    if flagGetId b = getOperationId id then
      ({ s with flags := s.flags.set index (flagCancel b) }, none)
    else (s, none)

/-- `Canceller::IsActive`: generation matches, alive and not cancelled. -/
def isActiveId (s : CancellerState) (cid : Option Nat) : Bool :=
  match cid with
  | none => false
  | some id =>
    let b := s.flags.getD (getFlagIndex id) 0
    flagGetId b == getOperationId id && flagIsAlive b && !flagIsCancelled b

/-- Number of alive flags in a registry. -/
def countAlive (flags : List Nat) : Nat := flags.countP (fun b => flagIsAlive b)

/-! ### Promise / Future shared state (async.hpp)

One `SharedState<R>` together with the executor's task queue and a log of
listener invocations.  The executor is the deque used by the test fixture:
thunks are recorded in submission order and run one at a time.  A thunk
scheduled by `Promise::Finished` carries `some r`; one scheduled by
`Promise::Terminate` carries `none`; both re-check `hasFuture` when run. -/

structure PFState (R : Type) where
  hasFuture : Bool
  active : Bool
  cbSet : Bool
  queue : List (Option R)
  invoked : List (Option R)
  deriving Repr, DecidableEq

/-- `Promise::Promise(executor)`: fresh state with `active = true`
(`hasFuture` starts false, no callback, nothing scheduled). -/
def promiseNew (R : Type) : PFState R :=
  ⟨false, true, false, [], []⟩

/-- `Promise::GetFuture`: throws if a future already exists, else flips
`hasFuture` (done by the `Future` constructor). -/
def getFuture {R : Type} (s : PFState R) : Except String (PFState R) :=
  if s.hasFuture then .error "Future already exists"
  else .ok { s with hasFuture := true }

/-- `Future::Then`: `SetCallbackIfEmpty`; throws if a callback was already
installed. -/
def futureThen {R : Type} (s : PFState R) : Except String (PFState R) :=
  if s.cbSet then .error "Async callback already set"
  else .ok { s with cbSet := true }

/-- `Promise::Finished(r)`: throws if no longer active; sets
`active = false`; if `hasFuture` and a callback is installed, hands the
executor one thunk carrying `some r`. -/
def promiseFinished {R : Type} (r : R) (s : PFState R) :
    Except String (PFState R) :=
  if !s.active then .error "Async task already finished"
  else
    let s' : PFState R := { s with active := false }
    if s'.hasFuture && s'.cbSet then .ok { s' with queue := s'.queue ++ [some r] }
    else .ok s'

/-- `Promise::Terminate` (destructor / move-assignment): if still active,
deactivate and — when `hasFuture` and a callback is installed — schedule a
thunk carrying `none`. -/
def promiseTerminate {R : Type} (s : PFState R) : PFState R :=
  let wasActive := s.active
  let s' : PFState R := { s with active := false }
  if wasActive && s'.hasFuture && s'.cbSet then
    { s' with queue := s'.queue ++ [none] }
  else s'

/-- `Future::Cancel` (destructor / explicit): set `hasFuture = false`. -/
def futureCancel {R : Type} (s : PFState R) : PFState R :=
  { s with hasFuture := false }

/-- `Future::IsActive`: state present and `active`. -/
def futureIsActive {R : Type} (s : PFState R) : Bool := s.active

/-- The executor runs the next scheduled thunk: the thunk re-checks
`hasFuture` and only then calls the stored callback with its payload. -/
def runNextThunk {R : Type} (s : PFState R) : PFState R :=
  match s.queue with
  | [] => s
  | p :: rest =>
    let s' : PFState R := { s with queue := rest }
    if s'.hasFuture then { s' with invoked := s'.invoked ++ [p] } else s'

/-! ### The `&&` combinator (async.hpp, `operator&&`)

Scenario state for `combined = (f1 && f2).Then(cb)` with both child
promises still pending.  Child states keep their own `active`/`hasFuture`
flags; the hooks installed by `operator&&` on the children are fixed code,
so each child's scheduled completion thunk is represented by a tag.  The
combined state records how many times the user callback `cb` ran. -/

inductive AndThunk where
  | lhs
  | rhs
  deriving Repr, DecidableEq

structure AndSys where
  lhsActive : Bool
  rhsActive : Bool
  lhsHasFuture : Bool
  rhsHasFuture : Bool
  combActive : Bool
  combHasFuture : Bool
  combCbSet : Bool
  queue : List AndThunk
  combInvocations : Nat
  deriving Repr, DecidableEq

/-- State right after `auto f = std::move(f1) && std::move(f2);
f.Then(cb);` with `p1`, `p2` still pending: both children are active with
`hasFuture` still set (the moved-from child futures never ran `Cancel`),
the combined state is active, owned by `f`, with `cb` installed. -/
def andInit : AndSys :=
  ⟨true, true, true, true, true, true, true, [], 0⟩

/-- `p1.Finished(r1)`: deactivate the lhs child and, since its hook is
installed unconditionally by `operator&&`, schedule its completion thunk
when `lhsHasFuture` holds. -/
def andFinishLhs (s : AndSys) : AndSys :=
  if s.lhsActive then
    let s' := { s with lhsActive := false }
    if s'.lhsHasFuture then { s' with queue := s'.queue ++ [.lhs] } else s'
  else s

/-- `p2.Finished(r2)`, symmetric. -/
def andFinishRhs (s : AndSys) : AndSys :=
  if s.rhsActive then
    let s' := { s with rhsActive := false }
    if s'.rhsHasFuture then { s' with queue := s'.queue ++ [.rhs] } else s'
  else s

/-- Body of the hook `operator&&` installs on the lhs child: pass through
the prior callback (absent here), then, if the rhs child is inactive, mark
the combined state finished and invoke its callback when `hasFuture` and a
callback are present. -/
def andLhsHook (s : AndSys) : AndSys :=
  if !s.rhsActive then
    let s' := { s with combActive := false }
    if s'.combHasFuture && s'.combCbSet then
      { s' with combInvocations := s'.combInvocations + 1 }
    else s'
  else s

/-- Hook on the rhs child, symmetric (tests `lhsActive`). -/
def andRhsHook (s : AndSys) : AndSys :=
  if !s.lhsActive then
    let s' := { s with combActive := false }
    if s'.combHasFuture && s'.combCbSet then
      { s' with combInvocations := s'.combInvocations + 1 }
    else s'
  else s

/-- The executor pops and runs the next completion thunk.  The thunk
scheduled by `Promise::Finished` re-checks the *child's* `hasFuture` before
calling the stored (hook) callback. -/
def andRunNext (s : AndSys) : AndSys :=
  match s.queue with
  | [] => s
  | .lhs :: rest =>
    let s' := { s with queue := rest }
    if s'.lhsHasFuture then andLhsHook s' else s'
  | .rhs :: rest =>
    let s' := { s with queue := rest }
    if s'.rhsHasFuture then andRhsHook s' else s'

/-- Iterate `andRunNext` a fixed number of steps. -/
def andRunSteps : Nat → AndSys → AndSys
  | 0, s => s
  | n + 1, s => andRunSteps n (andRunNext s)

/-- Run all queued thunks to exhaustion (the test fixture's
`ProcessTasks()`): the hooks never enqueue, so `queue.length` steps
suffice. -/
def andRunAll (s : AndSys) : AndSys := andRunSteps s.queue.length s

/-! ### The `||` combinator (async.hpp, `operator||`), for comparison

Same scenario shape as `AndSys`.  The hook installed on each child first
clears the *other* child's `hasFuture`, then finishes the combined
state. -/

def orInit : AndSys := andInit

/-- `p1.Finished(r1)` under `operator||`: identical scheduling logic. -/
def orFinishLhs : AndSys → AndSys := andFinishLhs

def orFinishRhs : AndSys → AndSys := andFinishRhs

/-- Hook `operator||` installs on the lhs child: cancel the rhs child
(`rhsState->hasFuture = false`), then finish the combined state. -/
def orLhsHook (s : AndSys) : AndSys :=
  let s0 := { s with rhsHasFuture := false }
  let s' := { s0 with combActive := false }
  if s'.combHasFuture && s'.combCbSet then
    { s' with combInvocations := s'.combInvocations + 1 }
  else s'

/-- Hook on the rhs child, symmetric. -/
def orRhsHook (s : AndSys) : AndSys :=
  let s0 := { s with lhsHasFuture := false }
  let s' := { s0 with combActive := false }
  if s'.combHasFuture && s'.combCbSet then
    { s' with combInvocations := s'.combInvocations + 1 }
  else s'

/-- Executor step for the `||` scenario: the completion thunk re-checks the
child's `hasFuture` before calling its hook. -/
def orRunNext (s : AndSys) : AndSys :=
  match s.queue with
  | [] => s
  | .lhs :: rest =>
    let s' := { s with queue := rest }
    if s'.lhsHasFuture then orLhsHook s' else s'
  | .rhs :: rest =>
    let s' := { s with queue := rest }
    if s'.rhsHasFuture then orRhsHook s' else s'

def orRunSteps : Nat → AndSys → AndSys
  | 0, s => s
  | n + 1, s => orRunSteps n (orRunNext s)

def orRunAll (s : AndSys) : AndSys := orRunSteps s.queue.length s

/-! ### `OnAnyCompleted` synchronizer (canceller.hpp / async.cpp)

Shared `State`: `trackedCount` (initialised to the sentinel 10'000 and
incremented per tracked callback), `firedCount`, and the listener.  Each
tracked callback's hook owns a captured state pointer that it nulls after
its first effective run (`armed`); `Detach` subtracts the sentinel.  The
model counts listener invocations and tracks whether the shared state has
been `delete`d. -/

structure AnySys where
  tracked : Nat
  fired : Nat
  listenerCalls : Nat
  stateAlive : Bool
  dropped : Bool
  armed : List Bool
  deriving Repr, DecidableEq

/-- State after `OnAnyCompleted(listener)` has tracked `n` callbacks:
`trackedCount = 10'000 + n`, nothing fired, all hooks armed. -/
def anyInit (n : Nat) : AnySys :=
  ⟨10000 + n, 0, 0, true, false, List.replicate n true⟩

inductive AnyEvent where
  | invoke (i : Nat)
  | drop
  deriving Repr, DecidableEq

/-- One event of the `OnAnyCompleted` system.

`invoke i` runs tracked callback `i`'s wrapped function: if its captured
state pointer is still set (`armed`), it increments `firedCount`, fires
the listener when this is the first fire and the sentinel has been removed
(`trackedCount < 10'000`), deletes the state when `firedCount` reaches
`trackedCount`, and nulls its own pointer.

`drop` is `OnAnyCompleted::Detach`: subtract the sentinel, fire the
listener if anything fired already, delete the state when counts match. -/
def anyStep (s : AnySys) : AnyEvent → AnySys
  | .invoke i =>
    if s.armed.getD i false then
      { s with
        fired := s.fired + 1
        listenerCalls :=
          if s.fired + 1 = 1 ∧ s.tracked < 10000 then s.listenerCalls + 1
          else s.listenerCalls
        stateAlive := if s.fired + 1 = s.tracked then false else s.stateAlive
        armed := s.armed.set i false }
    else s
  | .drop =>
    if s.dropped then s
    else
      { s with
        tracked := s.tracked - 10000
        listenerCalls :=
          if s.fired > 0 then s.listenerCalls + 1 else s.listenerCalls
        stateAlive := if s.fired = s.tracked - 10000 then false else s.stateAlive
        dropped := true }

def anyRun (s : AnySys) : List AnyEvent → AnySys
  | [] => s
  | e :: es => anyRun (anyStep s e) es

/-- Reachability invariant of the `OnAnyCompleted` system with `n` tracked
callbacks: `firedCount` counts disarmed hooks; `trackedCount` carries the
sentinel until drop; the listener has been called exactly once iff the
synchronizer was dropped and something fired. -/
def AnyInvariant (n : Nat) (s : AnySys) : Prop :=
  s.armed.length = n ∧
  s.fired + s.armed.count true = n ∧
  s.tracked = (if s.dropped then n else 10000 + n) ∧
  s.listenerCalls = (if s.dropped = true ∧ 1 ≤ s.fired then 1 else 0)

/-! ### Timer (workerpool.cpp, `TimerCtx`)

`m_pending` is a `std::multimap<time_point, Task>`: kept sorted by
deadline, entries with equal deadlines in insertion order.  Insertion
order is witnessed by a strictly increasing sequence number attached at
`Schedule` time. -/

structure TimerEntry (T : Type) where
  deadline : Nat
  seq : Nat
  task : T
  deriving Repr, DecidableEq

/-- Multimap order: by deadline, ties by insertion sequence. -/
def entryLE {T : Type} (a b : TimerEntry T) : Prop :=
  a.deadline < b.deadline ∨ (a.deadline = b.deadline ∧ a.seq ≤ b.seq)

instance {T : Type} : DecidableRel (@entryLE T) :=
  fun a b => by unfold entryLE; infer_instance

/-- `TimerCtx::Schedule`: `m_pending.emplace(when, task)` — the multimap
places the new entry after all entries with deadline ≤ its own. -/
def timerInsert {T : Type} (e : TimerEntry T) :
    List (TimerEntry T) → List (TimerEntry T)
  | [] => [e]
  | x :: xs =>
    if x.deadline ≤ e.deadline then x :: timerInsert e xs
    else e :: x :: xs

/-- The harvesting loop of `TimerCtx::RunTimer` at one clock observation
`now`: repeatedly take the head while `head.deadline ≤ now`, collecting due
entries in order; the rest stays pending. -/
def collectDue {T : Type} (now : Nat) :
    List (TimerEntry T) → List (TimerEntry T) × List (TimerEntry T)
  | [] => ([], [])
  | x :: xs =>
    if x.deadline ≤ now then
      (x :: (collectDue now xs).1, (collectDue now xs).2)
    else ([], x :: xs)

/-- A run of the timer loop over a list of clock observations: each
iteration harvests the due entries (invoked outside the lock, in order)
and leaves the rest.  Returns the log of `(observation, entry)` firings
and the final pending list. -/
def timerRun {T : Type} (obs : List Nat) (pending : List (TimerEntry T)) :
    List (Nat × TimerEntry T) × List (TimerEntry T) :=
  match obs with
  | [] => ([], pending)
  | t :: ts =>
    ((collectDue t pending).1.map (fun e => (t, e)) ++
       (timerRun ts (collectDue t pending).2).1,
     (timerRun ts (collectDue t pending).2).2)

/-! ### Worker exception guard (workerpool.cpp, `WorkerCtx::InvokeGuarded`) -/

/-- A C++ exception escaping a task: either derived from `std::exception`
(with its `what()` string) or of unknown type. -/
inductive CppExc where
  | stdExc (what : String)
  | unknown
  deriving Repr, DecidableEq

/-- The log line produced by the catch blocks. -/
def excMsg (tid : String) : CppExc → String
  | .stdExc w => "Uncaught exception in thread " ++ tid ++ ": " ++ w
  | .unknown => "Uncaught exception in thread " ++ tid

structure WorkerState where
  busyCount : Nat
  log : List String
  deriving Repr, DecidableEq

/-- `WorkerCtx::InvokeGuarded(t)`: `m_busyCount.fetch_add(1)`; run the task
(inside a try/catch converting exceptions into one logger line when
`CATCH_EXCEPTIONS`); `m_busyCount.fetch_sub(1)`.  The task's behaviour is
its `Except` outcome; a propagating exception skips the decrement. -/
def invokeGuarded (catchExceptions : Bool) (tid : String)
    (outcome : Except CppExc Unit) (s : WorkerState) :
    Except CppExc WorkerState :=
  let s1 : WorkerState := { s with busyCount := s.busyCount + 1 }
  let afterTask : Except CppExc WorkerState :=
    if catchExceptions then
      match outcome with
      | .ok _ => .ok s1
      | .error e => .ok { s1 with log := s1.log ++ [excMsg tid e] }
    else outcome.map fun _ => s1
  afterTask.map fun s2 => { s2 with busyCount := s2.busyCount - 1 }

/-- Event trace of one `InvokeGuarded` call, in the statement order of the
C++ body: increment, task execution, possible log line, decrement. -/
inductive WorkerEv where
  | busyInc
  | taskRun
  | logged (msg : String)
  | busyDec
  deriving Repr, DecidableEq

def invokeGuardedTrace (tid : String) (outcome : Except CppExc Unit) :
    List WorkerEv :=
  [WorkerEv.busyInc, WorkerEv.taskRun] ++
    (match outcome with
     | .ok _ => []
     | .error e => [WorkerEv.logged (excMsg tid e)]) ++
    [WorkerEv.busyDec]

/-! ### Scenario compositions used by the future/promise claims -/

/-- `p.GetFuture(); f.Then(cb); p.Finished(r)`. -/
def finishedScenario (R : Type) (r : R) : Except String (PFState R) :=
  (getFuture (promiseNew R)).bind fun s1 =>
  (futureThen s1).bind fun s2 =>
  promiseFinished r s2

/-- `p.GetFuture(); f.Then(cb); p.~Promise()` (or move-assignment over
`p`, which runs the same `Terminate`). -/
def terminateScenario (R : Type) : Except String (PFState R) :=
  (getFuture (promiseNew R)).bind fun s1 =>
  (futureThen s1).map fun s2 => promiseTerminate s2

/-! ### Helper lemmas on flag bytes -/

set_option maxRecDepth 4096

lemma flagActivate_alive (b : Nat) : flagIsAlive (flagActivate b) = true := by
  have h : (b + 1) % 256 < 256 := Nat.mod_lt _ (by norm_num)
  have hall : ∀ x : Fin 256, flagIsAlive ((x.1.lor 128).land 191) = true := by decide
  simpa [flagActivate, MASK_ALIVE] using hall ⟨(b + 1) % 256, h⟩

lemma flagActivate_not_cancelled (b : Nat) :
    flagIsCancelled (flagActivate b) = false := by
  have h : (b + 1) % 256 < 256 := Nat.mod_lt _ (by norm_num)
  have hall : ∀ x : Fin 256, flagIsCancelled ((x.1.lor 128).land 191) = false := by
    decide
  simpa [flagActivate, MASK_CANCELLED] using hall ⟨(b + 1) % 256, h⟩

lemma flagDeactivate_not_alive (b : Nat) :
    flagIsAlive (flagDeactivate b) = false := by
  have hlt : b.land 127 < 128 := by
    have : b.land 127 ≤ 127 := Nat.and_le_right
    omega
  have hall : ∀ x : Fin 128, flagIsAlive x.1 = false := by decide
  simpa [flagDeactivate] using hall ⟨b.land 127, hlt⟩

/-! ### Helper lemmas on tokens and callbacks -/

lemma tokenLock_iff (w : List Nat) (t : Nat) : tokenLock w t = true ↔ t ∈ w := by
  simp [tokenLock, List.elem_iff]

lemma tokenLock_destroy_self (w : List Nat) (s : CancellerState) :
    tokenLock (destroyCanceller w s) s.tokenId = false := by
  rw [Bool.eq_false_iff]
  intro h
  have := (tokenLock_iff _ _).mp h
  simp [destroyCanceller, List.mem_filter] at this

lemma tokenLock_destroy_other (w : List Nat) (s : CancellerState) (t : Nat)
    (hmem : t ∈ w) (hne : t ≠ s.tokenId) :
    tokenLock (destroyCanceller w s) t = true := by
  refine (tokenLock_iff _ _).mpr ?_
  simp [destroyCanceller, List.mem_filter, hmem, hne]

lemma cbCancelled_of_dead_token {F : Type} (w : List Nat) (flags : List Nat)
    (c : CallbackState F) (h : tokenLock w c.tokenId = false) :
    cbCancelled w flags c = true := by
  simp [cbCancelled, h]

lemma cbInvokeRuns_of_dead_token {F : Type} (w : List Nat) (flags : List Nat)
    (c : CallbackState F) (h : tokenLock w c.tokenId = false) :
    cbInvokeRuns w flags c = false := by
  simp [cbInvokeRuns, h]

lemma makeCb_ok_structure {F : Type} {s : CancellerState} {f : F} {withId : Bool}
    {s' : CancellerState} {c : CallbackState F} {cid : Option Nat}
    (h : makeCb s f withId = .ok (s', c, cid)) :
    c.tokenId = s.tokenId ∧ s'.tokenId = s.tokenId ∧ c.func = some f := by
  unfold makeCb registerCallback at h
  by_cases hw : withId
  · simp only [hw] at h
    cases hfind : findFreeSlot s.flags s.lastUsedFlag s.flags.length with
    | none => simp [hfind, Except.map] at h
    | some idx =>
      simp [hfind, Except.map] at h
      obtain ⟨h1, h2, h3⟩ := h
      refine ⟨?_, ?_, ?_⟩
      · rw [← h2]
      · rw [← h1]
      · rw [← h2]
  · simp [hw, Except.map] at h
    obtain ⟨h1, h2, h3⟩ := h
    refine ⟨?_, ?_, ?_⟩
    · rw [← h2]
    · rw [← h1]
    · rw [← h2]

/-! ### Helper lemmas on the registry search loop -/

lemma getD_set_self (l : List Nat) (i x : Nat) (h : i < l.length) :
    (l.set i x).getD i 0 = x := by
  rw [List.getD_eq_getElem _ _ (by simpa using h)]
  simp [List.getElem_set_self]

lemma findFreeSlot_some_not_alive {flags : List Nat} :
    ∀ {fuel cursor idx}, findFreeSlot flags cursor fuel = some idx →
      flagIsAlive (flags.getD idx 0) = false := by
  intro fuel
  induction fuel with
  | zero => intro cursor idx h; simp [findFreeSlot] at h
  | succ n ih =>
    intro cursor idx h
    unfold findFreeSlot at h
    by_cases ha : flagIsAlive (flags.getD ((cursor + 1) % flags.length) 0)
    · rw [if_pos ha] at h
      exact ih h
    · rw [if_neg ha] at h
      cases h
      simpa using ha

lemma findFreeSlot_some_lt {flags : List Nat} :
    ∀ {fuel cursor idx}, 0 < flags.length →
      findFreeSlot flags cursor fuel = some idx → idx < flags.length := by
  intro fuel
  induction fuel with
  | zero => intro cursor idx _ h; simp [findFreeSlot] at h
  | succ n ih =>
    intro cursor idx hpos h
    unfold findFreeSlot at h
    by_cases ha : flagIsAlive (flags.getD ((cursor + 1) % flags.length) 0)
    · rw [if_pos ha] at h
      exact ih hpos h
    · rw [if_neg ha] at h
      cases h
      exact Nat.mod_lt _ hpos

lemma findFreeSlot_none_probes_alive {flags : List Nat} :
    ∀ {fuel cursor}, findFreeSlot flags cursor fuel = none →
      ∀ j < fuel,
        flagIsAlive (flags.getD ((cursor + 1 + j) % flags.length) 0) = true := by
  intro fuel
  induction fuel with
  | zero => intro cursor _ j hj; omega
  | succ n ih =>
    intro cursor h j hj
    unfold findFreeSlot at h
    by_cases ha : flagIsAlive (flags.getD ((cursor + 1) % flags.length) 0)
    · rw [if_pos ha] at h
      match j with
      | 0 => simpa using ha
      | k + 1 =>
        have hk : k < n := by omega
        have := ih h k hk
        have hmod : ((cursor + 1) % flags.length + 1 + k) % flags.length =
            (cursor + 1 + (k + 1)) % flags.length := by
          rw [Nat.add_assoc, Nat.mod_add_mod,
              show cursor + 1 + (1 + k) = cursor + 1 + (k + 1) from by omega]
        rwa [hmod] at this
    · rw [if_neg ha] at h
      cases h

lemma findFreeSlot_none_all_alive {flags : List Nat} {cursor : Nat}
    (hpos : 0 < flags.length)
    (h : findFreeSlot flags cursor flags.length = none) :
    ∀ i < flags.length, flagIsAlive (flags.getD i 0) = true := by
  intro i hi
  set len := flags.length with hlen
  set r := (cursor + 1) % len with hr
  have hrlt : r < len := Nat.mod_lt _ hpos
  have hj : (i + len - r) % len < len := Nat.mod_lt _ hpos
  have := findFreeSlot_none_probes_alive h ((i + len - r) % len) hj
  have hmod : (cursor + 1 + (i + len - r) % len) % len = i := by
    rw [← Nat.mod_add_mod, ← hr, Nat.add_mod_mod,
        Nat.add_sub_cancel' (by omega), Nat.add_mod_right]
    exact Nat.mod_eq_of_lt hi
  rwa [hmod] at this

lemma makeCb_untracked_fields {F : Type} {s : CancellerState} {f : F}
    {out : CancellerState × CallbackState F × Option Nat}
    (h : makeCb s f false = .ok out) :
    out.1 = s ∧ out.2.1.tokenId = s.tokenId ∧ out.2.1.func = some f ∧
    out.2.1.flagIdx = none := by
  unfold makeCb registerCallback at h
  simp [Except.map] at h
  rw [← h]
  exact ⟨rfl, rfl, rfl, rfl⟩

lemma makeCb_tracked_fields {F : Type} {s : CancellerState} {f : F}
    {out : CancellerState × CallbackState F × Option Nat}
    (h : makeCb s f true = .ok out) :
    out.2.1.tokenId = s.tokenId ∧ out.2.1.func = some f ∧
    out.2.1.flagIdx.isSome = true ∧
    out.2.1.flagIdx.getD 0 < s.flags.length ∧
    out.1.flags = s.flags.set (out.2.1.flagIdx.getD 0)
      (flagActivate (s.flags.getD (out.2.1.flagIdx.getD 0) 0)) ∧
    flagIsAlive (out.1.flags.getD (out.2.1.flagIdx.getD 0) 0) = true := by
  unfold makeCb registerCallback at h
  simp only [Bool.not_true, Bool.false_eq_true, if_false] at h
  cases hfind : findFreeSlot s.flags s.lastUsedFlag s.flags.length with
  | none => rw [hfind] at h; simp [Except.map] at h
  | some idx =>
    rw [hfind] at h
    simp [Except.map] at h
    have hpos : 0 < s.flags.length := by
      by_contra hz
      have : s.flags.length = 0 := by omega
      rw [this] at hfind
      simp [findFreeSlot] at hfind
    have hlt : idx < s.flags.length := findFreeSlot_some_lt hpos hfind
    rw [← h]
    refine ⟨rfl, rfl, rfl, hlt, by simp [List.getD_eq_getElem?_getD], ?_⟩
    have halive : flagIsAlive
        ((s.flags.set idx (flagActivate (s.flags.getD idx 0))).getD idx 0) = true := by
      rw [getD_set_self _ _ _ hlt]
      exact flagActivate_alive _
    simpa [List.getD_eq_getElem?_getD] using halive

lemma all_alive_findFreeSlot_none {flags : List Nat} (hpos : 0 < flags.length)
    (hall : ∀ i < flags.length, flagIsAlive (flags.getD i 0) = true) :
    ∀ fuel cursor, findFreeSlot flags cursor fuel = none := by
  intro fuel
  induction fuel with
  | zero => intro cursor; rfl
  | succ n ih =>
    intro cursor
    unfold findFreeSlot
    rw [if_pos (hall _ (Nat.mod_lt _ hpos))]
    exact ih _

/-! ### Claim theorems -/

/-- Claim C1: for every Canceller (owner) and every Callback created from
it, after the owner object is destroyed the callback's `Cancelled()`
returns `true` and invoking the callback is a silent no-op that never
calls the stored function. -/
theorem callback_noop_after_owner_destroyed {F : Type} (w : List Nat)
    (s : CancellerState) (f : F) (withId : Bool)
    (s' : CancellerState) (c : CallbackState F) (cid : Option Nat)
    (h : makeCb s f withId = .ok (s', c, cid)) :
    cbCancelled (destroyCanceller w s') s'.flags c = true ∧
    cbInvokeRuns (destroyCanceller w s') s'.flags c = false := by
  obtain ⟨hc, hs, _⟩ := makeCb_ok_structure h
  have hdead : tokenLock (destroyCanceller w s') c.tokenId = false := by
    rw [hc, ← hs]
    exact tokenLock_destroy_self w s'
  exact ⟨cbCancelled_of_dead_token _ _ _ hdead, cbInvokeRuns_of_dead_token _ _ _ hdead⟩

/-- Witness for C1: a tracked callback made from a live canceller with two
flag slots, evaluated at concrete inputs. -/
theorem callback_noop_after_owner_destroyed_witness :
    cbCancelled (destroyCanceller [7] ⟨7, [0, 129], 1⟩) [0, 129]
        (⟨7, some 0, some 1⟩ : CallbackState Nat) = true ∧
    cbInvokeRuns (destroyCanceller [7] ⟨7, [0, 129], 1⟩) [0, 129]
        (⟨7, some 0, some 1⟩ : CallbackState Nat) = false :=
  callback_noop_after_owner_destroyed [7] (cancellerNew 7 2) (0 : Nat) true
    ⟨7, [0, 129], 1⟩ ⟨7, some 0, some 1⟩ (some 65) (by rfl)

/-- Claim C2: `Then(cb)` on the future, then `Finished(r)` on the promise,
hands the executor exactly one task; running that task invokes
`cb (some r)`; if the future is cancelled (`hasFuture := false`) before the
task runs, `cb` is not invoked at all. -/
theorem promise_finished_delivers {R : Type} (r : R) :
    finishedScenario R r = .ok ⟨true, false, true, [some r], []⟩ ∧
    runNextThunk (⟨true, false, true, [some r], []⟩ : PFState R) =
      ⟨true, false, true, [], [some r]⟩ ∧
    runNextThunk (futureCancel (⟨true, false, true, [some r], []⟩ : PFState R)) =
      ⟨false, false, true, [], []⟩ :=
  ⟨rfl, rfl, rfl⟩

/-- Claim C3: destroying (or move-assigning over) a still-active promise
whose live future has a registered callback schedules exactly one thunk;
when the executor runs it, the callback is invoked exactly once, with
`none`. -/
theorem promise_terminate_delivers_none (R : Type) :
    terminateScenario R = .ok ⟨true, false, true, [none], []⟩ ∧
    runNextThunk (⟨true, false, true, [none], []⟩ : PFState R) =
      ⟨true, false, true, [], [none]⟩ ∧
    runNextThunk (runNextThunk (⟨true, false, true, [none], []⟩ : PFState R)) =
      ⟨true, false, true, [], [none]⟩ :=
  ⟨rfl, rfl, rfl⟩

/-- Claim C4 (code bug, evaluation at the failing input): when both
children of `f1 && f2` complete before either completion thunk runs —
both completions in the same executor turn — the combined future's
callback fires twice, not once: each child's hook observes the other as
inactive and re-invokes the combined callback, and nothing clears it.
Under `operator||` the same schedule fires the callback exactly once,
because the first hook clears the other child's `hasFuture`. -/
theorem and_combinator_double_fire :
    (andRunAll (andFinishRhs (andFinishLhs andInit))).combInvocations = 2 ∧
    (orRunAll (orFinishRhs (orFinishLhs orInit))).combInvocations = 1 := by
  decide

/-- Claim C8: with `CATCH_EXCEPTIONS`, a throwing task leads to exactly
one logger call whose message begins `"Uncaught exception in thread "`
(with `": <what>"` appended for `std::exception`, nothing for unknown
types), the exception does not propagate out of the guard, and
`busy_count` is incremented before the task and decremented after it. -/
theorem worker_exception_guard (tid w : String) (s : WorkerState) :
    invokeGuarded true tid (.error (.stdExc w)) s =
      .ok ⟨s.busyCount, s.log ++ ["Uncaught exception in thread " ++ tid ++ ": " ++ w]⟩ ∧
    invokeGuarded true tid (.error .unknown) s =
      .ok ⟨s.busyCount, s.log ++ ["Uncaught exception in thread " ++ tid]⟩ ∧
    invokeGuarded true tid (.ok ()) s = .ok ⟨s.busyCount, s.log⟩ ∧
    invokeGuardedTrace tid (.error (.stdExc w)) =
      [.busyInc, .taskRun,
       .logged ("Uncaught exception in thread " ++ tid ++ ": " ++ w), .busyDec] ∧
    invokeGuardedTrace tid (.error .unknown) =
      [.busyInc, .taskRun,
       .logged ("Uncaught exception in thread " ++ tid), .busyDec] := by
  refine ⟨?_, ?_, ?_, rfl, rfl⟩ <;>
    simp [invokeGuarded, Except.map, excMsg]

/-- Counterexample for C9: `MakeCb` invoked without a `CallbackId`
out-parameter does not allocate any flag: the registry is returned
unchanged (all four flags stay zero, nothing alive) and the produced
callback carries an empty flag reference. -/
theorem makeCb_untracked_counterexample :
    makeCb (cancellerNew 3 4) (42 : Nat) false =
      .ok (cancellerNew 3 4, ⟨3, some 42, none⟩, none) ∧
    countAlive (cancellerNew 3 4).flags = 0 := ⟨rfl, rfl⟩

/-- Claim C9 as amended: `MakeCb(f)` always binds `f` and a weak reference
to the owner's token, but allocates a registry flag only when a
`CallbackId` out-parameter is supplied; without one the registry is left
untouched and the callback's flag reference is empty. -/
theorem makeCb_flag_allocation {F : Type} (s : CancellerState) (f : F)
    (out : CancellerState × CallbackState F × Option Nat) :
    (makeCb s f false = .ok out →
       out.1 = s ∧ out.2.1.tokenId = s.tokenId ∧ out.2.1.func = some f ∧
       out.2.1.flagIdx = none) ∧
    (makeCb s f true = .ok out →
       out.2.1.tokenId = s.tokenId ∧ out.2.1.func = some f ∧
       out.2.1.flagIdx.isSome = true ∧
       out.2.1.flagIdx.getD 0 < s.flags.length ∧
       out.1.flags = s.flags.set (out.2.1.flagIdx.getD 0)
         (flagActivate (s.flags.getD (out.2.1.flagIdx.getD 0) 0)) ∧
       flagIsAlive (out.1.flags.getD (out.2.1.flagIdx.getD 0) 0) = true) :=
  ⟨fun h => makeCb_untracked_fields h, fun h => makeCb_tracked_fields h⟩

/-- Witness for C9's amended theorem: a canceller with four slots, called
once without and once with a `CallbackId` out-parameter. -/
theorem makeCb_flag_allocation_witness :
    ((cancellerNew 3 4, (⟨3, some 42, none⟩ : CallbackState Nat),
        (none : Option Nat)).1 = cancellerNew 3 4 ∧
      (cancellerNew 3 4, (⟨3, some 42, none⟩ : CallbackState Nat),
        (none : Option Nat)).2.1.tokenId = (cancellerNew 3 4).tokenId ∧
      (cancellerNew 3 4, (⟨3, some 42, none⟩ : CallbackState Nat),
        (none : Option Nat)).2.1.func = some 42 ∧
      (cancellerNew 3 4, (⟨3, some 42, none⟩ : CallbackState Nat),
        (none : Option Nat)).2.1.flagIdx = none) ∧
    ((⟨⟨3, [0, 129, 0, 0], 1⟩, (⟨3, some 42, some 1⟩ : CallbackState Nat),
        some 65⟩ : CancellerState × CallbackState Nat × Option Nat).2.1.tokenId =
        (cancellerNew 3 4).tokenId ∧
      (⟨⟨3, [0, 129, 0, 0], 1⟩, (⟨3, some 42, some 1⟩ : CallbackState Nat),
        some 65⟩ : CancellerState × CallbackState Nat × Option Nat).2.1.func = some 42 ∧
      (⟨⟨3, [0, 129, 0, 0], 1⟩, (⟨3, some 42, some 1⟩ : CallbackState Nat),
        some 65⟩ : CancellerState × CallbackState Nat × Option Nat).2.1.flagIdx.isSome =
        true ∧
      (⟨⟨3, [0, 129, 0, 0], 1⟩, (⟨3, some 42, some 1⟩ : CallbackState Nat),
        some 65⟩ : CancellerState × CallbackState Nat × Option Nat).2.1.flagIdx.getD 0 <
        (cancellerNew 3 4).flags.length ∧
      (⟨⟨3, [0, 129, 0, 0], 1⟩, (⟨3, some 42, some 1⟩ : CallbackState Nat),
        some 65⟩ : CancellerState × CallbackState Nat × Option Nat).1.flags =
        (cancellerNew 3 4).flags.set
          ((⟨⟨3, [0, 129, 0, 0], 1⟩, (⟨3, some 42, some 1⟩ : CallbackState Nat),
            some 65⟩ : CancellerState × CallbackState Nat × Option Nat).2.1.flagIdx.getD 0)
          (flagActivate ((cancellerNew 3 4).flags.getD
            ((⟨⟨3, [0, 129, 0, 0], 1⟩, (⟨3, some 42, some 1⟩ : CallbackState Nat),
              some 65⟩ :
                CancellerState × CallbackState Nat × Option Nat).2.1.flagIdx.getD 0) 0)) ∧
      flagIsAlive
        ((⟨⟨3, [0, 129, 0, 0], 1⟩, (⟨3, some 42, some 1⟩ : CallbackState Nat),
          some 65⟩ : CancellerState × CallbackState Nat × Option Nat).1.flags.getD
          ((⟨⟨3, [0, 129, 0, 0], 1⟩, (⟨3, some 42, some 1⟩ : CallbackState Nat),
            some 65⟩ : CancellerState × CallbackState Nat × Option Nat).2.1.flagIdx.getD 0)
          0) = true) :=
  ⟨(makeCb_flag_allocation (cancellerNew 3 4) 42
      (cancellerNew 3 4, ⟨3, some 42, none⟩, none)).1 (by rfl),
   (makeCb_flag_allocation (cancellerNew 3 4) 42
      (⟨⟨3, [0, 129, 0, 0], 1⟩, ⟨3, some 42, some 1⟩, some 65⟩)).2 (by rfl)⟩

/-- Claim C10: copy-constructing a `Canceller` behaves like constructing a
fresh one — the copy gets its own new token and an all-zero flag registry,
shares no cancellation state with the original, and destroying the
original leaves a callback created from the copy un-cancelled and
invocable. -/
theorem canceller_copy_independent {F : Type} (w : List Nat)
    (src : CancellerState) (tok : Nat) (f : F)
    (s' : CancellerState) (c : CallbackState F) (cid : Option Nat)
    (hfresh : tok ≠ src.tokenId)
    (hlive : tok ∈ w)
    (hmk : makeCb (cancellerCopy src tok) f true = .ok (s', c, cid)) :
    cancellerCopy src tok = cancellerNew tok src.flags.length ∧
    (cancellerCopy src tok).flags = List.replicate src.flags.length 0 ∧
    (cancellerCopy src tok).tokenId ≠ src.tokenId ∧
    cbCancelled (destroyCanceller w src) s'.flags c = false ∧
    cbInvokeRuns (destroyCanceller w src) s'.flags c = true := by
  obtain ⟨hc, hs, hf⟩ := makeCb_ok_structure hmk
  have htokc : c.tokenId = tok := hc
  have hlock : tokenLock (destroyCanceller w src) c.tokenId = true := by
    rw [htokc]
    exact tokenLock_destroy_other w src tok hlive hfresh
  obtain ⟨-, -, hsome, hlt, hflags, halive⟩ := makeCb_tracked_fields hmk
  cases hcidx : c.flagIdx with
  | none => rw [hcidx] at hsome; simp at hsome
  | some idx =>
    have hidx : idx < (cancellerCopy src tok).flags.length := by
      rw [hcidx] at hlt; simpa using hlt
    have hbyte : s'.flags.getD idx 0 =
        flagActivate ((cancellerCopy src tok).flags.getD idx 0) := by
      rw [hcidx] at hflags
      simp only [Option.getD_some] at hflags
      rw [hflags]
      exact getD_set_self _ _ _ hidx
    have hnotc : flagIsCancelled (s'.flags.getD idx 0) = false := by
      rw [hbyte]
      exact flagActivate_not_cancelled _
    have hnotc' : flagIsCancelled (s'.flags[idx]?.getD 0) = false := by
      simpa [List.getD_eq_getElem?_getD] using hnotc
    refine ⟨rfl, rfl, hfresh, ?_, ?_⟩
    · simp [cbCancelled, hlock, hcidx, hnotc']
    · simp [cbInvokeRuns, hlock, hcidx, hnotc', hf]

/-- Witness for C10: original canceller with token 3, copy with fresh
token 9; the copy's callback survives the original's destruction. -/
theorem canceller_copy_independent_witness :
    cancellerCopy (cancellerNew 3 2) 9 = cancellerNew 9 (cancellerNew 3 2).flags.length ∧
    (cancellerCopy (cancellerNew 3 2) 9).flags =
      List.replicate (cancellerNew 3 2).flags.length 0 ∧
    (cancellerCopy (cancellerNew 3 2) 9).tokenId ≠ (cancellerNew 3 2).tokenId ∧
    cbCancelled (destroyCanceller [3, 9] (cancellerNew 3 2)) [0, 129]
      (⟨9, some 0, some 1⟩ : CallbackState Nat) = false ∧
    cbInvokeRuns (destroyCanceller [3, 9] (cancellerNew 3 2)) [0, 129]
      (⟨9, some 0, some 1⟩ : CallbackState Nat) = true :=
  canceller_copy_independent [3, 9] (cancellerNew 3 2) 9 (0 : Nat)
    ⟨9, [0, 129], 1⟩ ⟨9, some 0, some 1⟩ (some 65)
    (by decide) (by decide) (by rfl)

/-! ### Capacity (claim C6) -/

lemma countAlive_set_free_to_alive : ∀ (l : List Nat) (i x : Nat),
    i < l.length → flagIsAlive (l.getD i 0) = false → flagIsAlive x = true →
    countAlive (l.set i x) = countAlive l + 1 := by
  intro l
  induction l with
  | nil => intro i x h; simp at h
  | cons b bs ih =>
    intro i x h hold hnew
    cases i with
    | zero =>
      have hb : flagIsAlive b = false := by simpa [List.getD] using hold
      simp [countAlive, List.countP_cons, hb, hnew]
    | succ k =>
      have hk : k < bs.length := by simpa using h
      have hold' : flagIsAlive (bs.getD k 0) = false := by
        simpa [List.getD] using hold
      have := ih k x hk hold' hnew
      show countAlive (b :: bs.set k x) = countAlive (b :: bs) + 1
      simp only [countAlive, List.countP_cons] at *
      omega

/-- Claim C6: a Canceller with capacity `N` admits exactly `N` concurrent
tracked callbacks.  (1) With every flag alive, the next tracked
registration throws `CapacityExceeded`; (2) with any free flag, tracked
registration succeeds and raises the number of alive flags by one;
(3) destroying a tracked callback clears its flag's alive bit, freeing the
slot. -/
theorem canceller_capacity {F : Type} (s : CancellerState) (N : Nat)
    (w : List Nat) (c : CallbackState F) (idx : Nat)
    (hN : s.flags.length = N)
    (hidx : c.flagIdx = some idx)
    (htok : tokenLock w c.tokenId = true) :
    ((∀ i < N, flagIsAlive (s.flags.getD i 0) = true) →
       registerCallback s true =
         .error "Number of callbacks exceeds Canceller capacity") ∧
    ((∃ i, i < N ∧ flagIsAlive (s.flags.getD i 0) = false) →
       ∃ r, registerCallback s true = .ok r ∧
         countAlive r.state.flags = countAlive s.flags + 1) ∧
    flagIsAlive ((cbDestroy w s c).flags.getD idx 0) = false := by
  subst hN
  refine ⟨?_, ?_, ?_⟩
  · intro hall
    unfold registerCallback
    by_cases hpos : 0 < s.flags.length
    · rw [all_alive_findFreeSlot_none hpos hall s.flags.length s.lastUsedFlag]
      rfl
    · have h0 : s.flags.length = 0 := by omega
      rw [h0]
      simp [findFreeSlot]
  · rintro ⟨i, hi, hfree⟩
    have hpos : 0 < s.flags.length := by omega
    cases hfind : findFreeSlot s.flags s.lastUsedFlag s.flags.length with
    | none =>
      have := findFreeSlot_none_all_alive hpos hfind i hi
      rw [this] at hfree
      cases hfree
    | some j =>
      have hjlt : j < s.flags.length := findFreeSlot_some_lt hpos hfind
      have hjfree : flagIsAlive (s.flags.getD j 0) = false :=
        findFreeSlot_some_not_alive hfind
      refine ⟨⟨⟨s.tokenId, s.flags.set j (flagActivate (s.flags.getD j 0)), j⟩,
        some j, some (makeCallbackId (flagActivate (s.flags.getD j 0)) j)⟩, ?_, ?_⟩
      · unfold registerCallback
        rw [hfind]
        rfl
      · exact countAlive_set_free_to_alive _ _ _ hjlt hjfree (flagActivate_alive _)
  · unfold cbDestroy
    rw [hidx, htok]
    simp only [if_true]
    by_cases hlt : idx < s.flags.length
    · show flagIsAlive
        ((s.flags.set idx (flagDeactivate (s.flags.getD idx 0))).getD idx 0) = false
      rw [getD_set_self _ _ _ hlt]
      exact flagDeactivate_not_alive _
    · show flagIsAlive
        ((s.flags.set idx (flagDeactivate (s.flags.getD idx 0))).getD idx 0) = false
      rw [List.set_eq_of_length_le (by omega)]
      rw [List.getD_eq_default _ _ (by omega)]
      decide

/-- Witness for C6: a two-slot canceller with both flags alive rejects the
third tracked callback; destroying the callback occupying slot 1 clears
its alive bit. -/
theorem canceller_capacity_witness :
    registerCallback ⟨5, [129, 129], 0⟩ true =
      .error "Number of callbacks exceeds Canceller capacity" ∧
    flagIsAlive ((cbDestroy [5] ⟨5, [129, 129], 0⟩
      (⟨5, some 0, some 1⟩ : CallbackState Nat)).flags.getD 1 0) = false :=
  ⟨(canceller_capacity ⟨5, [129, 129], 0⟩ 2 [5]
      (⟨5, some 0, some 1⟩ : CallbackState Nat) 1 rfl rfl (by decide)).1 (by decide),
   (canceller_capacity ⟨5, [129, 129], 0⟩ 2 [5]
      (⟨5, some 0, some 1⟩ : CallbackState Nat) 1 rfl rfl (by decide)).2.2⟩

/-! ### Timer lemmas (claim C7) -/

lemma collectDue_fst_le {T : Type} (now : Nat) : ∀ l : List (TimerEntry T),
    ∀ e ∈ (collectDue now l).1, e.deadline ≤ now := by
  intro l
  induction l with
  | nil => intro e he; simp [collectDue] at he
  | cons x xs ih =>
    intro e he
    unfold collectDue at he
    by_cases h : x.deadline ≤ now
    · rw [if_pos h] at he
      rcases List.mem_cons.mp he with rfl | hxs
      · exact h
      · exact ih e hxs
    · rw [if_neg h] at he
      simp at he

lemma collectDue_append {T : Type} (now : Nat) : ∀ l : List (TimerEntry T),
    (collectDue now l).1 ++ (collectDue now l).2 = l := by
  intro l
  induction l with
  | nil => rfl
  | cons x xs ih =>
    unfold collectDue
    by_cases h : x.deadline ≤ now
    · rw [if_pos h]
      simpa using ih
    · rw [if_neg h]
      rfl

lemma timerRun_fires_le {T : Type} : ∀ (obs : List Nat)
    (pending : List (TimerEntry T)),
    ∀ p ∈ (timerRun obs pending).1, p.2.deadline ≤ p.1 := by
  intro obs
  induction obs with
  | nil => intro pending p hp; simp [timerRun] at hp
  | cons t ts ih =>
    intro pending p hp
    unfold timerRun at hp
    rcases List.mem_append.mp hp with hdue | hrec
    · rcases List.mem_map.mp hdue with ⟨e, he, rfl⟩
      exact collectDue_fst_le t pending e he
    · exact ih _ p hrec

lemma timerInsert_mem {T : Type} (e : TimerEntry T) : ∀ (l : List (TimerEntry T))
    (y : TimerEntry T), y ∈ timerInsert e l → y = e ∨ y ∈ l := by
  intro l
  induction l with
  | nil => intro y hy; simp [timerInsert] at hy; exact Or.inl hy
  | cons x xs ih =>
    intro y hy
    unfold timerInsert at hy
    by_cases h : x.deadline ≤ e.deadline
    · rw [if_pos h] at hy
      rcases List.mem_cons.mp hy with rfl | hy'
      · exact Or.inr (List.mem_cons_self _ _)
      · rcases ih y hy' with rfl | hyxs
        · exact Or.inl rfl
        · exact Or.inr (List.mem_cons_of_mem _ hyxs)
    · rw [if_neg h] at hy
      rcases List.mem_cons.mp hy with rfl | hy'
      · exact Or.inl rfl
      · exact Or.inr hy'

lemma timerInsert_pairwise {T : Type} (e : TimerEntry T) :
    ∀ l : List (TimerEntry T), l.Pairwise entryLE →
      (∀ x ∈ l, x.seq < e.seq) → (timerInsert e l).Pairwise entryLE := by
  intro l
  induction l with
  | nil => intro _ _; simp [timerInsert]
  | cons x xs ih =>
    intro hp hf
    rcases List.pairwise_cons.mp hp with ⟨hx, hxs⟩
    unfold timerInsert
    by_cases h : x.deadline ≤ e.deadline
    · rw [if_pos h]
      refine List.pairwise_cons.mpr ⟨?_,
        ih hxs (fun y hy => hf y (List.mem_cons_of_mem _ hy))⟩
      intro y hy
      rcases timerInsert_mem e xs y hy with rfl | hyxs
      · rcases Nat.lt_or_ge x.deadline y.deadline with hlt | hge
        · exact Or.inl hlt
        · exact Or.inr ⟨by omega, Nat.le_of_lt (hf x (List.mem_cons_self _ _))⟩
      · exact hx y hyxs
    · rw [if_neg h]
      have he : e.deadline < x.deadline := by omega
      refine List.pairwise_cons.mpr ⟨?_, hp⟩
      intro y hy
      rcases List.mem_cons.mp hy with rfl | hyxs
      · exact Or.inl he
      · rcases hx y hyxs with h1 | ⟨h2, _⟩
        · exact Or.inl (Nat.lt_trans he h1)
        · exact Or.inl (h2 ▸ he)

/-- Claim C7: a scheduled task never fires before the timer thread
observes a clock value ≥ its deadline, and the due tasks of one poll are
harvested — and hence invoked — in deadline order with same-deadline ties
broken by insertion order (the multimap keeps entries sorted by deadline
with insertion order among equals, and the harvest is an in-order prefix).
`Schedule` with a fresh (maximal) sequence number preserves that order. -/
theorem timer_fires_in_deadline_order {T : Type} (obs : List Nat)
    (pending : List (TimerEntry T)) (now : Nat) (e : TimerEntry T)
    (hsorted : pending.Pairwise entryLE)
    (hfresh : ∀ x ∈ pending, x.seq < e.seq) :
    (∀ p ∈ (timerRun obs pending).1, p.2.deadline ≤ p.1) ∧
    (∀ x ∈ (collectDue now pending).1, x.deadline ≤ now) ∧
    (collectDue now pending).1 ++ (collectDue now pending).2 = pending ∧
    (collectDue now pending).1.Pairwise entryLE ∧
    (timerInsert e pending).Pairwise entryLE := by
  refine ⟨timerRun_fires_le obs pending, collectDue_fst_le now pending,
    collectDue_append now pending, ?_, timerInsert_pairwise e pending hsorted hfresh⟩
  have hsub : List.Sublist (collectDue now pending).1 pending := by
    conv_rhs => rw [← collectDue_append now pending]
    exact List.sublist_append_left _ _
  exact hsorted.sublist hsub

/-- Witness for C7: three pending entries — two with deadline 5 (inserted
as sequence 0 then 1) and one with deadline 9 — observed at clock 6, plus
a fresh entry with deadline 5 and sequence 3 being scheduled. -/
theorem timer_fires_in_deadline_order_witness :
    (collectDue 6 [(⟨5, 0, 10⟩ : TimerEntry Nat), ⟨5, 1, 11⟩, ⟨9, 2, 12⟩]).1 ++
      (collectDue 6 [(⟨5, 0, 10⟩ : TimerEntry Nat), ⟨5, 1, 11⟩, ⟨9, 2, 12⟩]).2 =
      [(⟨5, 0, 10⟩ : TimerEntry Nat), ⟨5, 1, 11⟩, ⟨9, 2, 12⟩] ∧
    (collectDue 6 [(⟨5, 0, 10⟩ : TimerEntry Nat), ⟨5, 1, 11⟩,
      ⟨9, 2, 12⟩]).1.Pairwise entryLE ∧
    (timerInsert (⟨5, 3, 13⟩ : TimerEntry Nat)
      [⟨5, 0, 10⟩, ⟨5, 1, 11⟩, ⟨9, 2, 12⟩]).Pairwise entryLE :=
  ⟨(timer_fires_in_deadline_order [6] [⟨5, 0, 10⟩, ⟨5, 1, 11⟩, ⟨9, 2, 12⟩] 6 ⟨5, 3, 13⟩
      (by decide) (by decide)).2.2.1,
   (timer_fires_in_deadline_order [6] [⟨5, 0, 10⟩, ⟨5, 1, 11⟩, ⟨9, 2, 12⟩] 6 ⟨5, 3, 13⟩
      (by decide) (by decide)).2.2.2.1,
   (timer_fires_in_deadline_order [6] [⟨5, 0, 10⟩, ⟨5, 1, 11⟩, ⟨9, 2, 12⟩] 6 ⟨5, 3, 13⟩
      (by decide) (by decide)).2.2.2.2⟩

/-! ### `OnAnyCompleted` invariant (claim C5) -/

lemma count_true_set_false : ∀ (l : List Bool) (i : Nat),
    l.getD i false = true → (l.set i false).count true + 1 = l.count true := by
  intro l
  induction l with
  | nil => intro i h; simp [List.getD] at h
  | cons b bs ih =>
    intro i h
    cases i with
    | zero =>
      have hb : b = true := by simpa [List.getD] using h
      subst hb
      show (false :: bs).count true + 1 = (true :: bs).count true
      simp [List.count_cons]
    | succ k =>
      have h' : bs.getD k false = true := by simpa [List.getD] using h
      have := ih k h'
      show (b :: bs.set k false).count true + 1 = (b :: bs).count true
      simp only [List.count_cons] at *
      omega

lemma anyInit_invariant (n : Nat) : AnyInvariant n (anyInit n) := by
  refine ⟨by simp [anyInit], by simp [anyInit], by simp [anyInit],
    by simp [anyInit]⟩

lemma anyStep_invoke_armed (s : AnySys) (i : Nat)
    (harm : s.armed.getD i false = true) :
    anyStep s (.invoke i) =
      { s with
        fired := s.fired + 1
        listenerCalls :=
          if s.fired + 1 = 1 ∧ s.tracked < 10000 then s.listenerCalls + 1
          else s.listenerCalls
        stateAlive := if s.fired + 1 = s.tracked then false else s.stateAlive
        armed := s.armed.set i false } := by
  simp only [anyStep, harm, if_true]

lemma anyStep_invoke_disarmed (s : AnySys) (i : Nat)
    (harm : ¬s.armed.getD i false = true) :
    anyStep s (.invoke i) = s := by
  simp only [anyStep, if_neg harm]

lemma anyStep_drop_fresh (s : AnySys) (hd : s.dropped = false) :
    anyStep s .drop =
      { s with
        tracked := s.tracked - 10000
        listenerCalls :=
          if s.fired > 0 then s.listenerCalls + 1 else s.listenerCalls
        stateAlive := if s.fired = s.tracked - 10000 then false else s.stateAlive
        dropped := true } := by
  simp only [anyStep, hd, Bool.false_eq_true, if_false]

lemma anyStep_drop_again (s : AnySys) (hd : s.dropped = true) :
    anyStep s .drop = s := by
  simp only [anyStep, hd, if_true]

lemma anyStep_preserves (n : Nat) (hn : n < 10000) (s : AnySys)
    (hinv : AnyInvariant n s) (e : AnyEvent) : AnyInvariant n (anyStep s e) := by
  obtain ⟨hlen, hfired, htracked, hlisten⟩ := hinv
  cases e with
  | invoke i =>
    by_cases harm : s.armed.getD i false = true
    · have hi : i < s.armed.length := by
        by_contra hge
        rw [List.getD_eq_default _ _ (by omega)] at harm
        cases harm
      have hcount := count_true_set_false s.armed i harm
      have hfl : s.fired < n := by omega
      rw [anyStep_invoke_armed s i harm]
      refine ⟨by simpa using hlen, ?_, by simpa using htracked, ?_⟩
      · show s.fired + 1 + (s.armed.set i false).count true = n
        omega
      · show (if s.fired + 1 = 1 ∧ s.tracked < 10000 then s.listenerCalls + 1
          else s.listenerCalls) =
          (if s.dropped = true ∧ 1 ≤ s.fired + 1 then 1 else 0)
        by_cases hd : s.dropped = true
        · simp only [hd, if_true, true_and] at htracked ⊢
          simp only [hd, true_and] at hlisten
          by_cases hz : s.fired = 0
          · rw [if_pos ⟨by omega, by omega⟩]
            simp [hlisten, hz]
          · rw [if_neg (by omega), hlisten, if_pos (by omega), if_pos (by omega)]
        · simp only [Bool.not_eq_true] at hd
          simp only [hd, Bool.false_eq_true, if_false, false_and] at htracked hlisten ⊢
          rw [if_neg (by omega), hlisten]
    · rw [anyStep_invoke_disarmed s i harm]
      exact ⟨hlen, hfired, htracked, hlisten⟩
  | drop =>
    cases hd : s.dropped with
    | true =>
      rw [anyStep_drop_again s hd]
      exact ⟨hlen, hfired, htracked, hlisten⟩
    | false =>
      rw [anyStep_drop_fresh s hd]
      simp only [hd, Bool.false_eq_true, if_false, false_and] at htracked hlisten
      have htr : s.tracked - 10000 = n := by omega
      refine ⟨hlen, hfired, by simp [htr], ?_⟩
      show (if 0 < s.fired then s.listenerCalls + 1 else s.listenerCalls) =
        (if (true : Bool) = true ∧ 1 ≤ s.fired then 1 else 0)
      by_cases hz : 0 < s.fired
      · rw [if_pos hz, if_pos ⟨rfl, by omega⟩, hlisten]
      · rw [if_neg hz, if_neg (by omega), hlisten]

lemma anyRun_invariant (n : Nat) (hn : n < 10000) :
    ∀ (events : List AnyEvent) (s : AnySys), AnyInvariant n s →
      AnyInvariant n (anyRun s events) := by
  intro events
  induction events with
  | nil => intro s h; exact h
  | cons e es ih =>
    intro s h
    exact ih _ (anyStep_preserves n hn s h e)

/-- Claim C5: for an `OnAnyCompleted` synchronizer tracking `n` callbacks
(`n` below the 10'000 sentinel), after any sequence of callback runs and
the (at most one) drop, the listener has fired at most once, and it has
fired exactly once iff at least one tracked callback fired AND the
synchronizer was dropped — whichever happened later. -/
theorem onAnyCompleted_listener_at_most_once (n : Nat) (hn : n < 10000)
    (events : List AnyEvent) :
    (anyRun (anyInit n) events).listenerCalls ≤ 1 ∧
    ((anyRun (anyInit n) events).listenerCalls = 1 ↔
      ((anyRun (anyInit n) events).dropped = true ∧
        1 ≤ (anyRun (anyInit n) events).fired)) := by
  obtain ⟨-, -, -, hlisten⟩ :=
    anyRun_invariant n hn events (anyInit n) (anyInit_invariant n)
  rw [hlisten]
  by_cases h : (anyRun (anyInit n) events).dropped = true ∧
      1 ≤ (anyRun (anyInit n) events).fired
  · rw [if_pos h]
    simp [h]
  · rw [if_neg h]
    simp [h]

/-- Witness for C5: two tracked callbacks; callback 0 fires, then the
synchronizer is dropped. -/
theorem onAnyCompleted_listener_at_most_once_witness :
    (anyRun (anyInit 2) [.invoke 0, .drop]).listenerCalls ≤ 1 ∧
    ((anyRun (anyInit 2) [.invoke 0, .drop]).listenerCalls = 1 ↔
      ((anyRun (anyInit 2) [.invoke 0, .drop]).dropped = true ∧
        1 ≤ (anyRun (anyInit 2) [.invoke 0, .drop]).fired)) :=
  onAnyCompleted_listener_at_most_once 2 (by decide) [.invoke 0, .drop]

end AsyncLib
